import Mathlib

/-!
# Verification of the seeFood menu-digitizing pipeline

Shallow embedding of the pure/deterministic core of `menu_vision_pipeline.py`
and `app.py` (string sanitization, extension normalization, menu-item
extraction cleaning, the fan-out coordinator's order restoration, the upload
entry point's calling convention) together with proofs of the specified
properties.  Network byte payloads and filesystem side effects are modelled
by explicit data (lists of write events, abstract preprocessing outcomes);
everything claimed about the program is deterministic string/list
manipulation, which is embedded directly from the source.
-/

namespace SeeFood

/-! ## Python-style string primitives

`str.strip(chars)` removes characters from both ends; `str.lstrip(chars)`
from the left only.  We model strings by their character lists. -/

/-- Python `str.strip` on a character list: drop matching characters from the
left, then from the right (`List.rdropWhile` drops from the tail end). -/
def pyStrip (p : Char → Bool) (l : List Char) : List Char :=
  List.rdropWhile p (l.dropWhile p)

/-- Python `str.strip()` (whitespace strip) on a `String`. -/
def pyStripWS (s : String) : String :=
  ⟨pyStrip (fun c => c.isWhitespace) s.data⟩

/-- Python `str.lstrip(".")` on a `String`: drop every leading dot. -/
def pyLstripDots (s : String) : String :=
  ⟨s.data.dropWhile (fun c => c = '.')⟩

/-- Python `str.lower` (ASCII range), written over the character list so
that it evaluates by kernel reduction. -/
def pyLower (s : String) : String :=
  ⟨s.data.map Char.toLower⟩

/-- Python truthiness-based `x or default` for an optional string: `None` and
the empty string are falsy. -/
def pyOr (o : Option String) (d : String) : String :=
  match o with
  | some h => if h = "" then d else h
  | none => d

/-- Python truthiness of an optional string (used for `and ext_hint`). -/
def pyTruthy (o : Option String) : Bool :=
  match o with
  | some h => ! (h = "")
  | none => false

/-! ## `sanitize_filename` (menu_vision_pipeline.py lines 234-237)

```python
def sanitize_filename(text: str) -> str:
    text = text.lower()
    text = re.sub(r"[^a-z0-9]+", "-", text).strip("-")
    return text or "menu-item"
```
-/

/-- Characters the slug keeps: the class `[a-z0-9]` of the regex. -/
def isSlugChar (c : Char) : Bool :=
  ('a' ≤ c && c ≤ 'z') || ('0' ≤ c && c ≤ '9')

/-- `re.sub(r"[^a-z0-9]+", "-", text)`, written as a left-to-right scan.
The boolean state records whether we are inside a run of characters outside
`[a-z0-9]` whose replacement hyphen has already been emitted. -/
def squashAux : Bool → List Char → List Char
  | _, [] => []
  | inRun, c :: cs =>
    if isSlugChar c then c :: squashAux false cs
    else if inRun then squashAux true cs
    else '-' :: squashAux true cs

/-- `re.sub(r"[^a-z0-9]+", "-", text)`: every maximal run of characters
outside `[a-z0-9]` becomes a single hyphen. -/
def squashRuns (l : List Char) : List Char :=
  squashAux false l

/-- Hyphen test, for `.strip("-")`. -/
def isHyphen (c : Char) : Bool := c = '-'

/-- The core of `sanitize_filename` before the empty-string fallback. -/
def sanitizeCore (l : List Char) : List Char :=
  pyStrip isHyphen (squashRuns (l.map Char.toLower))

/-- `sanitize_filename` from menu_vision_pipeline.py lines 234-237. -/
def sanitize_filename (s : String) : String :=
  let t := sanitizeCore s.data
  if t.isEmpty then "menu-item" else ⟨t⟩

/-! Spec-side slug, written from the spec's own wording ("lowercase; replace
every run of non `[a-z0-9]` characters with a single hyphen; trim
leading/trailing hyphens; empty result → `"menu-item"`"), structured
differently from the source embedding so the equivalence is substantive:
replace each bad character by a hyphen, then collapse adjacent hyphens. -/

/-- Replace a character outside `[a-z0-9]` by a hyphen, keep others. -/
def markBad (c : Char) : Char :=
  if isSlugChar c then c else '-'

/-- Collapse every maximal run of hyphens to a single hyphen. -/
def collapseHyphens : List Char → List Char
  | [] => []
  | a :: t =>
    match t with
    | [] => [a]
    | b :: _ => if a = '-' ∧ b = '-' then collapseHyphens t else a :: collapseHyphens t

/-- The slug function as the spec describes it. -/
def slug (s : String) : String :=
  let t := pyStrip isHyphen (collapseHyphens ((s.data.map Char.toLower).map markBad))
  if t.isEmpty then "menu-item" else ⟨t⟩

/-! ## Extension normalization (menu_vision_pipeline.py lines 343-360)

```python
    extension = extension.lstrip(".")
    if extension in {"jpeg", "jpg"}:
        extension = "jpg"
    elif extension != "png" and ext_hint:
        extension = ext_hint
    if extension not in {"png", "jpg"}:
        extension = "png"
```
The value entering this block is `image_format.lower()` for the Gemini
provider (with `ext_hint = None`) and `(ext_hint or image_format).lower()`
for the FAL provider. -/

/-- The normalization steps applied to the already-lowercased, dot-stripped
extension value, from the source. -/
def normalize_from (e0 : String) (ext_hint : Option String) : String :=
  let e1 :=
    if e0 = "jpeg" ∨ e0 = "jpg" then "jpg"
    else if ¬ (e0 = "png") ∧ pyTruthy ext_hint = true then ext_hint.getD ""
    else e0
  if e1 = "png" ∨ e1 = "jpg" then e1 else "png"

/-- The extension normalization performed by `generate_item_image`, as a
function of the raw extension value and the optional provider hint. -/
def normalize_extension (raw : String) (ext_hint : Option String) : String :=
  normalize_from (pyLstripDots (pyLower raw)) ext_hint

/-- Strip a single leading dot (the spec's "strip a leading dot"). -/
def stripOneLeadingDot (s : String) : String :=
  match s.data with
  | '.' :: t => ⟨t⟩
  | _ => s

/-- The normalization policy as the spec words it, after lowercasing and
dot-stripping: `"jpeg"→"jpg"`; if the value is neither `"png"` nor `"jpg"`
and a provider-supplied hint exists, prefer the hint; if still neither,
default to `"png"`. -/
def spec_normalize_from (e0 : String) (ext_hint : Option String) : String :=
  let e1 := if e0 = "jpeg" then "jpg" else e0
  let e2 :=
    if (¬ (e1 = "png") ∧ ¬ (e1 = "jpg")) ∧ pyTruthy ext_hint = true then ext_hint.getD ""
    else e1
  if ¬ (e2 = "png") ∧ ¬ (e2 = "jpg") then "png" else e2

/-- The spec's extension-normalization definition, reading "strip a leading
dot" literally (one dot). -/
def spec_normalize_extension (raw : String) (ext_hint : Option String) : String :=
  spec_normalize_from (stripOneLeadingDot (pyLower raw)) ext_hint

/-- The spec's extension-normalization definition amended to strip all
leading dots, as Python's `str.lstrip(".")` does. -/
def spec_normalize_extension_all (raw : String) (ext_hint : Option String) : String :=
  spec_normalize_from (pyLstripDots (pyLower raw)) ext_hint

/-! ## Data model -/

/-- A cleaned menu item (the dicts produced by `extract_menu_items`). -/
structure MenuItem where
  name : String
  price : String
  description : String
deriving DecidableEq

/-- One entry of the parsed `items` array before cleaning.  `isDict` models
`isinstance(item, dict)`; each field models `item.get(key)` restricted to
string-or-absent JSON values, with Python's `or ""` collapsing `None` to the
empty string. -/
structure RawEntry where
  isDict : Bool
  name : Option String
  price : Option String
  description : Option String
deriving DecidableEq

/-- The `items` value of the parsed model response: missing key, present but
not a list, or an actual list of entries. -/
inductive ItemsField where
  | absent
  | notList
  | list (entries : List RawEntry)
deriving DecidableEq

/-- The exception taxonomy raised by the embedded code paths. -/
inductive PipelineError where
  | menuExtraction (msg : String)
  | imageGeneration (msg : String)
  | valueError (msg : String)
  | typeError (msg : String)
  | osError (msg : String)
deriving DecidableEq

/-! ## `extract_menu_items` cleaning (menu_vision_pipeline.py lines 209-231)

```python
    items = payload.get("items")
    if not isinstance(items, list) or not items:
        raise MenuExtractionError("No menu items detected in OpenAI response.")

    cleaned_items = []
    for idx, item in enumerate(items):
        if not isinstance(item, dict):
            continue
        name = str(item.get("name") or "").strip()
        price = str(item.get("price") or "").strip()
        description = str(item.get("description") or "").strip()
        if not name:
            continue
        if not price:
            price = "N/A"
        if not description:
            description = f"A signature dish named {name}."
        cleaned_items.append({...})

    if not cleaned_items:
        raise MenuExtractionError("All menu entries were empty after cleaning.")
```
-/

/-- The cleaned item built from a raw entry: stripped fields, `"N/A"` for a
blank price, the templated default for a blank description. -/
def cleanedOf (e : RawEntry) : MenuItem :=
  { name := pyStripWS (e.name.getD ""),
    price := if pyStripWS (e.price.getD "") = "" then "N/A"
      else pyStripWS (e.price.getD ""),
    description := if pyStripWS (e.description.getD "") = ""
      then "A signature dish named " ++ pyStripWS (e.name.getD "") ++ "."
      else pyStripWS (e.description.getD "") }

/-- Cleaning of a single raw entry; `none` when the entry is skipped
(non-dict, or blank name after stripping). -/
def cleanEntry (e : RawEntry) : Option MenuItem :=
  if e.isDict then
    if pyStripWS (e.name.getD "") = "" then none else some (cleanedOf e)
  else none

/-- `extract_menu_items`, from the parsed `items` field onward (the network
call and JSON decoding that produce the field are not part of any claimed
property). -/
def extract_menu_items (items : ItemsField) : Except PipelineError (List MenuItem) :=
  match items with
  | .absent => .error (.menuExtraction "No menu items detected in OpenAI response.")
  | .notList => .error (.menuExtraction "No menu items detected in OpenAI response.")
  | .list entries =>
    if entries = [] then .error (.menuExtraction "No menu items detected in OpenAI response.")
    else
      let cleaned := entries.filterMap cleanEntry
      if cleaned = [] then .error (.menuExtraction "All menu entries were empty after cleaning.")
      else .ok cleaned

/-! ## Prompt and filename construction -/

/-- `IMAGE_STYLE_GUIDANCE` (lines 55-58). -/
def IMAGE_STYLE_GUIDANCE : String :=
  "Highly appetizing studio photography, natural lighting, shallow depth of field, " ++
    "served on restaurant-quality plating."

/-- `GEMINI_IMAGE_PROVIDER` (line 63). -/
def GEMINI_IMAGE_PROVIDER : String := "gemini_imagen"

/-- `FAL_IMAGE_PROVIDER` (line 64). -/
def FAL_IMAGE_PROVIDER : String := "fal_flux_krea"

/-- `build_dish_prompt` (lines 240-241).  The separator between name and
description in the source file is the three-character sequence
U+00E2 U+20AC U+201D (a mojibake rendering of an em dash). -/
def build_dish_prompt (item : MenuItem) : String :=
  item.name ++ " â€” " ++ item.description ++ ". " ++ IMAGE_STYLE_GUIDANCE

/-- Python `f"{seq:02d}"`: decimal, zero-padded to at least two digits. -/
def pad2 (n : Nat) : String :=
  if n < 10 then "0" ++ toString n else toString n

/-- `f"{seq:02d}-{sanitize_filename(item['name'])}.{extension}"` (line 360). -/
def image_filename (seq : Nat) (name : String) (extension : String) : String :=
  pad2 seq ++ "-" ++ sanitize_filename name ++ "." ++ extension

/-! ## `generate_item_image` (lines 331-364)

The provider network calls return opaque bytes; no claimed property depends
on them, so a successful call is modelled by the data that determines the
claims: the composed prompt and the written file's name.  The FAL branch's
`ext_hint` (derived from the download URL or Content-Type) is supplied as an
input. -/

/-- Successful outcome of `generate_item_image`. -/
structure GenOutcome where
  prompt : String
  filename : String
deriving DecidableEq

/-- `generate_item_image`: compose the prompt, dispatch on the provider tag
(`ValueError` for an unsupported tag, raised before any file is written),
normalize the extension and form the output filename. -/
def generate_item_image (item : MenuItem) (seq : Nat) (image_provider : String)
    (image_format : String) (ext_hint : Option String) :
    Except PipelineError GenOutcome :=
  let prompt := build_dish_prompt item
  let provider_key := pyLower image_provider
  if provider_key = GEMINI_IMAGE_PROVIDER then
    .ok ⟨prompt, image_filename seq item.name (normalize_extension image_format none)⟩
  else if provider_key = FAL_IMAGE_PROVIDER then
    .ok ⟨prompt,
      image_filename seq item.name (normalize_extension (pyOr ext_hint image_format) ext_hint)⟩
  else
    .error (.valueError ("Unsupported image provider: " ++ image_provider))

/-! ## The fan-out coordinator `process_menu` (lines 367-420) -/

/-- An item enriched by the `worker` closure: `{**item_data, "image_path":
str(image_path), "order": index}`. -/
structure EnrichedItem where
  name : String
  price : String
  description : String
  image_path : String
  order : Nat
deriving DecidableEq

/-- The comparison used by `metadata["items"].sort(key=lambda entry:
entry.pop("order"))`. -/
def orderLE (a b : EnrichedItem) : Prop := a.order ≤ b.order

instance : DecidableRel orderLE :=
  fun a b => inferInstanceAs (Decidable (a.order ≤ b.order))

instance : IsTotal EnrichedItem orderLE := ⟨fun a b => Nat.le_total a.order b.order⟩

instance : IsTrans EnrichedItem orderLE := ⟨fun _ _ _ hab hbc => Nat.le_trans hab hbc⟩

/-- A returned item after the sort has popped the `order` key. -/
structure OutItem where
  name : String
  price : String
  description : String
  image_path : String
deriving DecidableEq

/-- `entry.pop("order")`: the dict without its `order` key. -/
def stripOrder (e : EnrichedItem) : OutItem :=
  ⟨e.name, e.price, e.description, e.image_path⟩

/-- A file write performed by the pipeline: one image file per worker, plus
the final `menu_items.json` metadata document. -/
inductive WriteEvent where
  | imageFile (filename : String)
  | metadataFile (items : List OutItem)
deriving DecidableEq

/-- The `worker` closure of `process_menu` (lines 392-404): `seq = index + 1`,
`order = index`. -/
def worker (image_provider image_format : String) (hints : Nat → Option String)
    (items : List MenuItem) (idx : Nat) : Except PipelineError EnrichedItem :=
  let item := items.getD idx ⟨"", "", ""⟩
  match generate_item_image item (idx + 1) image_provider image_format (hints idx) with
  | .error e => .error e
  | .ok o => .ok ⟨item.name, item.price, item.description, o.filename, idx⟩

/-- The first exception re-raised by `future.result()` while collecting
completions, if any. -/
def firstError (rs : List (Except PipelineError EnrichedItem)) : Option PipelineError :=
  rs.findSome? fun r => match r with | .error e => some e | .ok _ => none

/-- The successfully collected results, in completion order. -/
def okValues (rs : List (Except PipelineError EnrichedItem)) : List EnrichedItem :=
  rs.filterMap fun r => match r with | .error _ => none | .ok v => some v

/-- The executor block of `process_menu` (lines 406-420): run one worker per
item, collect results in the completion order given by `completionOrder`
(the order in which `as_completed` yields the futures), then sort the
collection by the original `order` key, write `menu_items.json`, and return
the sorted items.  The only modelled worker failure (unsupported provider
tag) is raised before the image file is opened, so a failure contributes no
write and aborts the page. -/
def run_items (image_provider image_format : String) (hints : Nat → Option String)
    (items : List MenuItem) (completionOrder : List Nat) :
    List WriteEvent × Except PipelineError (List OutItem) :=
  let results := completionOrder.map (worker image_provider image_format hints items)
  match firstError results with
  | some e => ([], .error e)
  | none =>
    let completed := okValues results
    let sortedItems := (List.insertionSort orderLE completed).map stripOrder
    (completed.map (fun e => WriteEvent.imageFile e.image_path) ++
        [WriteEvent.metadataFile sortedItems],
      .ok sortedItems)

/-- `process_menu` (lines 367-420): credential checks (`configure_client`
and the FAL-key guard), extraction, then the fan-out phase.  The returned
list records the file writes performed. -/
def process_menu (api_key image_provider image_format fal_api_key : String)
    (hints : Nat → Option String) (items_field : ItemsField)
    (completionOrder : List Nat) :
    List WriteEvent × Except PipelineError (List OutItem) :=
  if api_key = "" then
    ([], .error (.valueError "Gemini API key missing. Set GEMINI_API_KEY env var or pass --api-key."))
  else if pyLower image_provider = FAL_IMAGE_PROVIDER ∧ fal_api_key = "" then
    ([], .error (.valueError "FAL image generation selected but FAL API key is missing."))
  else
    match extract_menu_items items_field with
    | .error e => ([], .error e)
    | .ok items => run_items image_provider image_format hints items completionOrder

/-- The extension `generate_item_image` chooses, by provider branch. -/
def gen_extension (image_provider image_format : String) (ext_hint : Option String) : String :=
  if pyLower image_provider = GEMINI_IMAGE_PROVIDER then
    normalize_extension image_format none
  else
    normalize_extension (pyOr ext_hint image_format) ext_hint

/-- What a successful worker returns for index `i`. -/
def enriched_item (image_provider image_format : String) (hints : Nat → Option String)
    (items : List MenuItem) (i : Nat) : EnrichedItem :=
  let item := items.getD i ⟨"", "", ""⟩
  ⟨item.name, item.price, item.description,
    image_filename (i + 1) item.name (gen_extension image_provider image_format (hints i)), i⟩

/-- The items `process_menu` returns and persists: one per extracted item,
in extraction order. -/
def expected_items (image_provider image_format : String) (hints : Nat → Option String)
    (items : List MenuItem) : List OutItem :=
  (List.range items.length).map
    (fun i => stripOrder (enriched_item image_provider image_format hints items i))

/-! ## `prepare_menu_payload` (menu_vision_pipeline.py lines 124-155)

```python
    try:
        with Image.open(path) as img:
            img = ImageOps.exif_transpose(img)
            ... downscale ... convert("RGB") ... save(buffer, format="JPEG") ...
        return {"mime_type": "image/jpeg", "data": data}
    except UnidentifiedImageError:
        data = path.read_bytes()
        return {"mime_type": mime_guess or "application/octet-stream", "data": data}
```
The `except UnidentifiedImageError` clause is the only handler around the
Pillow block; an exception of any other class raised while preprocessing
(e.g. an `OSError` from a truncated file during resize or re-encode)
propagates to the caller.  The path-existence check (`FileNotFoundError`)
precedes the block.  Pillow's image transforms themselves are opaque; the
block's outcome is therefore an input of the model. -/

/-- Outcome of the Pillow preprocessing block. -/
inductive PreprocessOutcome where
  | processed (encoded : List Nat)
  | unidentifiedImage
  | otherFailure
deriving DecidableEq

/-- The payload `extract_menu_items` is given. -/
structure MenuPayload where
  mime_type : String
  data : List Nat
deriving DecidableEq

/-- `prepare_menu_payload`, as a function of Pillow availability, the
`mimetypes.guess_type` result, the file's raw bytes and the preprocessing
outcome. -/
def prepare_menu_payload (pillowAvailable : Bool) (mimeGuess : Option String)
    (rawBytes : List Nat) (outcome : PreprocessOutcome) :
    Except PipelineError MenuPayload :=
  if pillowAvailable = false then
    .ok ⟨pyOr mimeGuess "image/jpeg", rawBytes⟩
  else
    match outcome with
    | .processed encoded => .ok ⟨"image/jpeg", encoded⟩
    | .unidentifiedImage => .ok ⟨pyOr mimeGuess "application/octet-stream", rawBytes⟩
    | .otherFailure =>
      .error (.osError "preprocessing failed with an exception other than UnidentifiedImageError")

/-! ## The upload entry point (app.py lines 120-251) -/

/-- `ALLOWED_EXTENSIONS` (app.py line 33). -/
def ALLOWED_EXTENSIONS : List String := ["png", "jpg", "jpeg", "heic", "webp"]

/-- `MAX_FILES` (app.py line 34). -/
def MAX_FILES : Nat := 10

/-- `filename.rsplit(".", 1)[1]`: the substring after the last dot (the
whole string when no dot is present, but `allowed_file` guards on that). -/
def afterLastDot (s : String) : String :=
  ⟨(s.data.reverse.takeWhile (fun c => ¬ (c = '.'))).reverse⟩

/-- `allowed_file` (app.py lines 45-46). -/
def allowed_file (filename : String) : Bool :=
  filename.data.contains '.' &&
    ALLOWED_EXTENSIONS.contains (pyLower (afterLastDot filename))

/-- The parameter names of `process_menu`'s signature
(menu_vision_pipeline.py lines 367-379). -/
def process_menu_params : List String :=
  ["menu_path", "output_dir", "api_key", "text_model", "image_provider", "image_model",
    "image_format", "fal_api_key", "fal_model", "fal_image_size", "max_workers"]

/-- The keyword arguments `process_uploaded_files` passes to `process_menu`
(app.py lines 169-182). -/
def process_menu_call_kwargs : List String :=
  ["menu_path", "output_dir", "api_key", "text_model", "image_provider", "image_model",
    "image_format", "fal_api_key", "fal_model", "fal_image_size", "max_workers",
    "generate_images"]

/-- A Python call raises `TypeError` exactly when some keyword argument is
not among the callee's parameters (`process_menu` has no `**kwargs`). -/
def call_raises_type_error : Bool :=
  ! (process_menu_call_kwargs.all (fun k => process_menu_params.contains k))

/-- The `TypeError` message CPython produces for the unexpected keyword
argument. -/
def TYPE_ERROR_MSG : String :=
  "process_menu() got an unexpected keyword argument 'generate_images'"

/-- `str(exc)` for the modelled exception taxonomy. -/
def pyStr : PipelineError → String
  | .menuExtraction m => m
  | .imageGeneration m => m
  | .valueError m => m
  | .typeError m => m
  | .osError m => m

/-- Result of `process_uploaded_files`: the `error` value of the returned
dict and whether `cleanup_session_directories` removed the session's upload
and output directories. -/
structure UploadResult where
  error : Option String
  dirsRemoved : Bool
deriving DecidableEq

/-- An element of `request.files.getlist("menu_images")`: `present` models
the truthiness of the storage object itself, `filename` its `.filename`
attribute, so `f and f.filename` is `present && filename ≠ ""`. -/
structure UploadFile where
  present : Bool
  filename : String
deriving DecidableEq

/-- `valid_files = [f for f in files if f and f.filename]` (app.py line 121). -/
def valid_files (files : List UploadFile) : List UploadFile :=
  files.filter (fun f => f.present && ! (f.filename = ""))

/-- The per-page loop of `process_uploaded_files` (app.py lines 147-233),
iterating over the valid files with the 1-based page counter `index`.
`secure` is werkzeug's `secure_filename` (an excluded external
collaborator, kept opaque); an empty secured name falls back to
`menu_page_{index}.jpg`.  `pageResult` stands for everything a page's
processing would do after a successful `process_menu` call; the call itself
raises `TypeError` first whenever `call_raises_type_error` holds, before
any of that can run. -/
def page_loop (secure : String → String) (pageResult : Nat → Except PipelineError Unit) :
    List UploadFile → Nat → Except PipelineError Unit
  | [], _ => .ok ()
  | f :: rest, index =>
    let filename0 := secure f.filename
    let filename := if filename0 = "" then "menu_page_" ++ toString index ++ ".jpg"
      else filename0
    if ¬ (allowed_file filename = true) then
      .error (.valueError ("Unsupported file type for " ++ f.filename ++ "."))
    else if call_raises_type_error = true then
      .error (.typeError TYPE_ERROR_MSG)
    else
      match pageResult index with
      | .error e => .error e
      | .ok _ => page_loop secure pageResult rest (index + 1)

/-- `process_uploaded_files` (app.py lines 120-251): the valid-files filter,
the count checks, the page loop, and the exception handlers that clean up
the session's upload and output directories and convert the exception into
an error dict. -/
def process_uploaded_files (secure : String → String)
    (pageResult : Nat → Except PipelineError Unit)
    (files : List UploadFile) : UploadResult :=
  if valid_files files = [] then ⟨some "Please select at least one image file.", false⟩
  else if MAX_FILES < (valid_files files).length then
    ⟨some "You can upload a maximum of 10 menu pages per run.", false⟩
  else
    match page_loop secure pageResult (valid_files files) 1 with
    | .ok _ => ⟨none, false⟩
    | .error (.menuExtraction _) =>
      ⟨some ("Gemini could not extract structured items from the menu. " ++
        "Try retaking the photo with better lighting or upload a different page."), true⟩
    | .error e => ⟨some (pyStr e), true⟩

/-- Decidable equality for `Except` results, used to evaluate witnesses. -/
instance {ε α : Type} [DecidableEq ε] [DecidableEq α] : DecidableEq (Except ε α) :=
  fun a b =>
    match a, b with
    | .error e₁, .error e₂ =>
      if h : e₁ = e₂ then .isTrue (by rw [h]) else .isFalse (fun hc => h (by injection hc))
    | .error _, .ok _ => .isFalse (fun hc => Except.noConfusion hc)
    | .ok _, .error _ => .isFalse (fun hc => Except.noConfusion hc)
    | .ok v₁, .ok v₂ =>
      if h : v₁ = v₂ then .isTrue (by rw [h]) else .isFalse (fun hc => h (by injection hc))

/-! ### Invariants of the slug machinery -/

/-- The head of the list is in `[a-z0-9]`, or the list is empty. -/
def headGood : List Char → Bool
  | [] => true
  | d :: _ => isSlugChar d

/-- Characterization of the image of `squashRuns`: every character is in
`[a-z0-9]`, or is a hyphen immediately followed by a `[a-z0-9]` character or
the end of the list. -/
def noRuns : List Char → Bool
  | [] => true
  | c :: cs => (isSlugChar c || (c = '-' && headGood cs)) && noRuns cs

theorem noRuns_tail {c : Char} {cs : List Char} (h : noRuns (c :: cs)) : noRuns cs := by
  simp only [noRuns, Bool.and_eq_true] at h
  exact h.2

theorem noRuns_chars {l : List Char} (h : noRuns l) :
    ∀ c ∈ l, isSlugChar c = true ∨ c = '-' := by
  induction l with
  | nil => intro c hc; cases hc
  | cons a t ih =>
    intro c hc
    simp only [noRuns, Bool.and_eq_true, Bool.or_eq_true] at h
    rcases List.mem_cons.mp hc with rfl | hmem
    · rcases h.1 with hg | hh
      · exact Or.inl hg
      · exact Or.inr (by simpa using hh.1)
    · exact ih h.2 c hmem

theorem squashAux_noRuns (l : List Char) :
    noRuns (squashAux false l) = true ∧ noRuns (squashAux true l) = true ∧
      headGood (squashAux true l) = true := by
  induction l with
  | nil => exact ⟨rfl, rfl, rfl⟩
  | cons c cs ih =>
    by_cases hc : isSlugChar c
    · refine ⟨?_, ?_, ?_⟩ <;> simp [squashAux, hc, noRuns, headGood, ih.1]
    · have hh : headGood (squashAux true cs) = true := ih.2.2
      refine ⟨?_, ?_, ?_⟩ <;>
        simp [squashAux, hc, noRuns, headGood, ih.2.1, hh] <;>
        first
        | exact Or.inr (by simpa [headGood] using hh)
        | exact (by simpa [headGood] using hh)

theorem noRuns_squashRuns (l : List Char) : noRuns (squashRuns l) = true :=
  (squashAux_noRuns l).1

theorem squashAux_fix {l : List Char} (h : noRuns l) :
    squashAux false l = l ∧ (headGood l = true → squashAux true l = l) := by
  induction l with
  | nil => exact ⟨rfl, fun _ => rfl⟩
  | cons c cs ih =>
    have htail := noRuns_tail h
    simp only [noRuns, Bool.and_eq_true, Bool.or_eq_true] at h
    by_cases hc : isSlugChar c
    · constructor
      · simp [squashAux, hc, (ih htail).1]
      · intro _
        simp [squashAux, hc, (ih htail).1]
    · rcases h.1 with hg | hh
      · exact absurd hg hc
      · have hcEq : c = '-' := by simpa using hh.1
        have hgood : headGood cs = true := by simpa using hh.2
        have htrue : squashAux true cs = cs := by
          cases cs with
          | nil => rfl
          | cons d ds =>
            have hd : isSlugChar d := by simpa [headGood] using hgood
            have h1 := (ih htail).1
            simp only [squashAux, hd, if_true, List.cons.injEq, true_and] at h1
            simp [squashAux, hd, h1]
        have hslugH : isSlugChar '-' = false := rfl
        constructor
        · simp [squashAux, hc, hcEq, htrue, hslugH]
        · intro hcont
          have : isSlugChar c := by simpa [headGood] using hcont
          exact absurd this hc

theorem squashRuns_fix {l : List Char} (h : noRuns l) : squashRuns l = l :=
  (squashAux_fix h).1

theorem noRuns_dropWhile (p : Char → Bool) {l : List Char} (h : noRuns l) :
    noRuns (l.dropWhile p) = true := by
  induction l with
  | nil => exact rfl
  | cons c cs ih =>
    by_cases hc : p c
    · simpa [List.dropWhile_cons, hc] using ih (noRuns_tail h)
    · simpa [List.dropWhile_cons, hc] using h

theorem noRuns_of_prefix {l₁ l₂ : List Char} (hp : l₁ <+: l₂) (h : noRuns l₂) :
    noRuns l₁ = true := by
  induction l₁ generalizing l₂ with
  | nil => exact rfl
  | cons a t ih =>
    obtain ⟨s, hs⟩ := hp
    cases l₂ with
    | nil => cases hs
    | cons b t₂ =>
      injection hs with hb ht
      subst hb
      have htp : t <+: t₂ := ⟨s, ht⟩
      simp only [noRuns, Bool.and_eq_true, Bool.or_eq_true] at h ⊢
      refine ⟨?_, ih htp h.2⟩
      rcases h.1 with hg | hh
      · exact Or.inl hg
      · refine Or.inr ⟨hh.1, ?_⟩
        cases t with
        | nil => rfl
        | cons d ds =>
          cases t₂ with
          | nil => cases ht
          | cons e es =>
            injection ht with hde _
            subst hde
            exact hh.2

/-! ### `pyStrip` is idempotent, and preserves the invariants -/

theorem dropWhile_rdropWhile_self (p : Char → Bool) (m : List Char)
    (hm : m.dropWhile p = m) : (m.rdropWhile p).dropWhile p = m.rdropWhile p := by
  cases m with
  | nil => simp [List.rdropWhile]
  | cons a t =>
    have hpa : ¬ p a := by
      have h0 := (List.dropWhile_eq_self_iff).mp hm (by simp)
      simpa using h0
    cases hr : List.rdropWhile p (a :: t) with
    | nil => simp
    | cons b u =>
      have hpre : (b :: u) <+: (a :: t) := by
        rw [← hr]
        exact List.rdropWhile_prefix p (a :: t)
      obtain ⟨s, hs⟩ := hpre
      injection hs with hba _
      subst hba
      simp [List.dropWhile_cons, hpa]

theorem dropWhile_pyStrip (p : Char → Bool) (l : List Char) :
    (pyStrip p l).dropWhile p = pyStrip p l :=
  dropWhile_rdropWhile_self p (l.dropWhile p) (List.dropWhile_idempotent p l)

theorem pyStrip_idem (p : Char → Bool) (l : List Char) :
    pyStrip p (pyStrip p l) = pyStrip p l := by
  show List.rdropWhile p ((pyStrip p l).dropWhile p) = pyStrip p l
  rw [dropWhile_pyStrip]
  exact List.rdropWhile_idempotent p (l.dropWhile p)

theorem noRuns_pyStrip {l : List Char} (h : noRuns l) :
    noRuns (pyStrip isHyphen l) = true :=
  noRuns_of_prefix (List.rdropWhile_prefix isHyphen (l.dropWhile isHyphen))
    (noRuns_dropWhile isHyphen h)

theorem pyStrip_subset (p : Char → Bool) {l : List Char} {c : Char}
    (h : c ∈ pyStrip p l) : c ∈ l := by
  have h1 : c ∈ l.dropWhile p :=
    (List.IsPrefix.sublist (List.rdropWhile_prefix p (l.dropWhile p))).subset h
  exact (List.dropWhile_sublist p).subset h1

/-! ### Characters of the sanitized output are fixed by `Char.toLower` -/

theorem char_le_toNat {a b : Char} (h : a ≤ b) : a.toNat ≤ b.toNat := by
  rw [Char.le_def, UInt32.le_def, BitVec.le_def] at h
  exact h

theorem toLower_fix {c : Char} (h : isSlugChar c = true ∨ c = '-') :
    Char.toLower c = c := by
  have hval : ¬ (c.toNat ≥ 65 ∧ c.toNat ≤ 90) := by
    rcases h with hs | rfl
    · simp only [isSlugChar, Bool.or_eq_true, Bool.and_eq_true, decide_eq_true_eq] at hs
      rcases hs with ⟨h1, h2⟩ | ⟨h1, h2⟩
      · have lo := char_le_toNat h1
        have hi := char_le_toNat h2
        have ea : ('a' : Char).toNat = 97 := rfl
        have ez : ('z' : Char).toNat = 122 := rfl
        rw [ea] at lo
        rw [ez] at hi
        omega
      · have lo := char_le_toNat h1
        have hi := char_le_toNat h2
        have e0 : ('0' : Char).toNat = 48 := rfl
        have e9 : ('9' : Char).toNat = 57 := rfl
        rw [e0] at lo
        rw [e9] at hi
        omega
    · decide
  show (if c.toNat ≥ 65 ∧ c.toNat ≤ 90 then Char.ofNat (c.toNat + 32) else c) = c
  rw [if_neg hval]

theorem sanitizeCore_map_toLower (l : List Char) :
    (sanitizeCore l).map Char.toLower = sanitizeCore l := by
  have hchars : ∀ c ∈ sanitizeCore l, Char.toLower c = c := by
    intro c hc
    have hsq : c ∈ squashRuns (l.map Char.toLower) := pyStrip_subset isHyphen hc
    exact toLower_fix (noRuns_chars (noRuns_squashRuns (l.map Char.toLower)) c hsq)
  calc (sanitizeCore l).map Char.toLower
      = (sanitizeCore l).map id := List.map_congr_left hchars
    _ = sanitizeCore l := List.map_id _

theorem sanitizeCore_idem (l : List Char) :
    sanitizeCore (sanitizeCore l) = sanitizeCore l := by
  have hnr : noRuns (sanitizeCore l) = true :=
    noRuns_pyStrip (noRuns_squashRuns (l.map Char.toLower))
  show pyStrip isHyphen (squashRuns ((sanitizeCore l).map Char.toLower)) = sanitizeCore l
  rw [sanitizeCore_map_toLower, squashRuns_fix hnr]
  exact pyStrip_idem isHyphen (squashRuns (l.map Char.toLower))

/-! ### The source's regex-sub equals the spec's run-replacement -/

theorem squashAux_cons (b : Bool) (c : Char) (cs : List Char) :
    squashAux b (c :: cs) =
      if isSlugChar c then c :: squashAux false cs
      else if b then squashAux true cs else '-' :: squashAux true cs := rfl

theorem collapseHyphens_pair (a b : Char) (t : List Char) :
    collapseHyphens (a :: b :: t) =
      if a = '-' ∧ b = '-' then collapseHyphens (b :: t)
      else a :: collapseHyphens (b :: t) := rfl

theorem isSlugChar_ne_hyphen {c : Char} (h : isSlugChar c = true) : ¬ (c = '-') := by
  intro he
  rw [he] at h
  exact absurd h (by decide)

theorem squashAux_eq_collapse (l : List Char) :
    squashAux false l = collapseHyphens (l.map markBad) ∧
      '-' :: squashAux true l = collapseHyphens ('-' :: l.map markBad) := by
  induction l with
  | nil => exact ⟨rfl, rfl⟩
  | cons c cs ih =>
    have part1 : squashAux false (c :: cs) = collapseHyphens ((c :: cs).map markBad) := by
      by_cases hc : isSlugChar c
      · have hm : markBad c = c := by simp [markBad, hc]
        cases cs with
        | nil => simp [squashAux_cons, squashAux, hc, collapseHyphens, hm]
        | cons d ds =>
          have hcne := isSlugChar_ne_hyphen hc
          have hno : ¬ (c = '-' ∧ markBad d = '-') := fun hand => hcne hand.1
          rw [squashAux_cons, if_pos hc, List.map_cons, List.map_cons, hm,
            collapseHyphens_pair, if_neg hno, ← List.map_cons markBad d ds, ← ih.1]
      · have hm : markBad c = '-' := by simp [markBad, hc]
        rw [List.map_cons, hm, ← ih.2, squashAux_cons, if_neg hc, if_neg (by decide)]
    refine ⟨part1, ?_⟩
    by_cases hc : isSlugChar c
    · have hm : markBad c = c := by simp [markBad, hc]
      have hcne := isSlugChar_ne_hyphen hc
      have hno : ¬ ('-' = '-' ∧ markBad c = '-') := by
        intro hand
        have : markBad c = c := hm
        exact hcne (this.symm.trans hand.2)
      rw [List.map_cons, collapseHyphens_pair, if_neg hno,
        ← List.map_cons markBad c cs, ← part1,
        squashAux_cons true c cs, if_pos hc, squashAux_cons false c cs, if_pos hc]
    · have hm : markBad c = '-' := by simp [markBad, hc]
      rw [List.map_cons, hm, collapseHyphens_pair, if_pos ⟨rfl, rfl⟩, ← ih.2,
        squashAux_cons true c cs, if_neg hc, if_pos rfl]

theorem sanitizeCore_eq_spec (l : List Char) :
    sanitizeCore l =
      pyStrip isHyphen (collapseHyphens ((l.map Char.toLower).map markBad)) := by
  show pyStrip isHyphen (squashAux false (l.map Char.toLower)) = _
  rw [(squashAux_eq_collapse (l.map Char.toLower)).1]

theorem sanitize_filename_eq_slug (s : String) : sanitize_filename s = slug s := by
  unfold sanitize_filename slug
  rw [sanitizeCore_eq_spec]

/-! ### Extension normalization lemmas -/

theorem normalize_from_eq_spec (e : String) (h : Option String) :
    normalize_from e h = spec_normalize_from e h := by
  unfold normalize_from spec_normalize_from
  by_cases h1 : e = "jpeg"
  · simp [h1]
  · by_cases h2 : e = "jpg"
    · simp [h1, h2]
    · by_cases h3 : e = "png"
      · simp [h1, h2, h3]
      · by_cases h4 : pyTruthy h = true
        · by_cases h5 : h.getD "" = "png"
          · simp [h1, h2, h3, h4, h5]
          · by_cases h6 : h.getD "" = "jpg" <;> simp [h1, h2, h3, h4, h5, h6]
        · simp [h1, h2, h3, h4]

theorem normalize_from_total (e : String) (h : Option String) :
    normalize_from e h = "png" ∨ normalize_from e h = "jpg" := by
  simp only [normalize_from]
  generalize (if e = "jpeg" ∨ e = "jpg" then "jpg"
    else if ¬ (e = "png") ∧ pyTruthy h = true then h.getD "" else e) = e1
  by_cases h1 : e1 = "png" ∨ e1 = "jpg"
  · rw [if_pos h1]
    exact h1
  · rw [if_neg h1]
    exact Or.inl rfl

/-! ### Coordinator lemmas -/

theorem worker_ok (image_provider image_format : String) (hints : Nat → Option String)
    (items : List MenuItem)
    (hprov : pyLower image_provider = GEMINI_IMAGE_PROVIDER ∨
      pyLower image_provider = FAL_IMAGE_PROVIDER) (i : Nat) :
    worker image_provider image_format hints items i
      = .ok (enriched_item image_provider image_format hints items i) := by
  have hne : ¬ (FAL_IMAGE_PROVIDER = GEMINI_IMAGE_PROVIDER) := by decide
  rcases hprov with hp | hp <;>
    simp [worker, generate_item_image, enriched_item, gen_extension, hp, hne]

theorem firstError_map_ok (g : Nat → EnrichedItem) (l : List Nat) :
    firstError (l.map (fun i => Except.ok (g i))) = none := by
  induction l with
  | nil => rfl
  | cons a t ih => simp only [List.map_cons, firstError, List.findSome?_cons]
                   exact ih

theorem okValues_map_ok (g : Nat → EnrichedItem) (l : List Nat) :
    okValues (l.map (fun i => Except.ok (g i))) = l.map g := by
  induction l with
  | nil => rfl
  | cons a t ih => simpa [okValues, List.filterMap_cons] using ih

theorem map_orderedInsert (f : Nat → EnrichedItem)
    (hmono : ∀ a b : Nat, orderLE (f a) (f b) ↔ a ≤ b) (a : Nat) (l : List Nat) :
    (List.orderedInsert (· ≤ ·) a l).map f
      = List.orderedInsert orderLE (f a) (l.map f) := by
  induction l with
  | nil => rfl
  | cons b t ih =>
    simp only [List.orderedInsert, List.map_cons]
    by_cases hab : a ≤ b
    · rw [if_pos hab, if_pos ((hmono a b).mpr hab)]
      simp
    · rw [if_neg hab, if_neg (fun hc => hab ((hmono a b).mp hc))]
      simp [List.map_cons, ih]

theorem map_insertionSort (f : Nat → EnrichedItem)
    (hmono : ∀ a b : Nat, orderLE (f a) (f b) ↔ a ≤ b) (l : List Nat) :
    (List.insertionSort (· ≤ ·) l).map f = List.insertionSort orderLE (l.map f) := by
  induction l with
  | nil => rfl
  | cons a t ih =>
    simp only [List.insertionSort, List.map_cons]
    rw [map_orderedInsert f hmono a (List.insertionSort (· ≤ ·) t), ih]

theorem insertionSort_perm_range {n : Nat} {perm : List Nat} (h : List.Perm perm (List.range n)) :
    List.insertionSort (· ≤ ·) perm = List.range n :=
  List.eq_of_perm_of_sorted ((List.perm_insertionSort _ perm).trans h)
    (List.sorted_insertionSort _ perm) (List.sorted_le_range n)

theorem run_items_ok (image_provider image_format : String) (hints : Nat → Option String)
    (items : List MenuItem) (completionOrder : List Nat)
    (hprov : pyLower image_provider = GEMINI_IMAGE_PROVIDER ∨
      pyLower image_provider = FAL_IMAGE_PROVIDER)
    (hperm : List.Perm completionOrder (List.range items.length)) :
    run_items image_provider image_format hints items completionOrder
      = (completionOrder.map (fun i => WriteEvent.imageFile
            (enriched_item image_provider image_format hints items i).image_path)
          ++ [WriteEvent.metadataFile (expected_items image_provider image_format hints items)],
        .ok (expected_items image_provider image_format hints items)) := by
  have hmap : completionOrder.map (worker image_provider image_format hints items)
      = completionOrder.map
          (fun i => Except.ok (enriched_item image_provider image_format hints items i)) :=
    List.map_congr_left fun i _ => worker_ok image_provider image_format hints items hprov i
  have hmono : ∀ a b : Nat,
      orderLE (enriched_item image_provider image_format hints items a)
        (enriched_item image_provider image_format hints items b) ↔ a ≤ b :=
    fun a b => Iff.rfl
  have hsorted :
      List.insertionSort orderLE
          (completionOrder.map (enriched_item image_provider image_format hints items))
        = (List.range items.length).map
            (enriched_item image_provider image_format hints items) := by
    rw [← map_insertionSort _ hmono, insertionSort_perm_range hperm]
  simp only [run_items, hmap, firstError_map_ok, okValues_map_ok, hsorted]
  simp [expected_items, List.map_map, Function.comp_def]

/-! ### Cleaning lemmas -/

theorem pyStripWS_idem (s : String) : pyStripWS (pyStripWS s) = pyStripWS s := by
  show String.mk (pyStrip (fun c => c.isWhitespace)
      (pyStrip (fun c => c.isWhitespace) s.data)) = _
  rw [pyStrip_idem]
  rfl

theorem cleanEntry_some_iff {e : RawEntry} {it : MenuItem} :
    cleanEntry e = some it ↔
      e.isDict = true ∧ ¬ (pyStripWS (e.name.getD "") = "") ∧ it = cleanedOf e := by
  unfold cleanEntry
  by_cases hd : e.isDict = true
  · by_cases hn : pyStripWS (e.name.getD "") = ""
    · rw [if_pos hd, if_pos hn]
      constructor
      · intro h
        exact Option.noConfusion h
      · rintro ⟨-, hn2, -⟩
        exact absurd hn hn2
    · rw [if_pos hd, if_neg hn]
      constructor
      · intro h
        injection h with h
        exact ⟨hd, hn, h.symm⟩
      · rintro ⟨-, -, rfl⟩
        rfl
  · rw [if_neg hd]
    constructor
    · intro h
      exact Option.noConfusion h
    · rintro ⟨hd2, -, -⟩
      exact absurd hd2 hd

/-! ## Claim theorems -/

/-- C3 counterexample: on the raw extension `"..jpeg"` with no hint, the
code's normalization (Python `lstrip` removes every leading dot, yielding
`"jpeg" → "jpg"`) differs from the spec's rule read literally (stripping a
single leading dot leaves `".jpeg"`, which falls through to `"png"`). -/
theorem normalize_extension_cex_C3 :
    ¬ (normalize_extension "..jpeg" none = spec_normalize_extension "..jpeg" none) := by
  decide

/-- C3 (amended): the extension normalization performed by
`generate_item_image` equals the spec's definition with "strip a leading
dot" amended to "strip all leading dots" (Python `str.lstrip(".")`):
lowercase the raw value and strip the leading dots; map `"jpeg"` to
`"jpg"`; if the normalized value is neither `"png"` nor `"jpg"` and a hint
exists, use the hint; if the result is still neither, use `"png"`. -/
theorem normalize_extension_amended_C3 (raw : String) (ext_hint : Option String) :
    normalize_extension raw ext_hint = spec_normalize_extension_all raw ext_hint :=
  normalize_from_eq_spec (pyLstripDots (pyLower raw)) ext_hint

/-- C10: extension normalization is total — for every (raw, hint) input
pair the chosen extension is `"png"` or `"jpg"`. -/
theorem normalize_extension_total_C10 (raw : String) (ext_hint : Option String) :
    normalize_extension raw ext_hint = "png" ∨ normalize_extension raw ext_hint = "jpg" :=
  normalize_from_total (pyLstripDots (pyLower raw)) ext_hint

/-- C8: For every string, `sanitize_filename` lowercases it, replaces every
maximal run of characters outside `[a-z0-9]` with a single hyphen, trims
leading and trailing hyphens, and returns `"menu-item"` when the result is
empty (this procedure is `slug`); in particular
`sanitize_filename "Crème Brûlée #1!!" = "cr-me-br-l-e-1"`. -/
theorem sanitize_filename_spec_C8 :
    (∀ s : String, sanitize_filename s = slug s) ∧
      sanitize_filename "Crème Brûlée #1!!" = "cr-me-br-l-e-1" :=
  ⟨sanitize_filename_eq_slug, by decide⟩

/-- C9: `sanitize_filename` is idempotent. -/
theorem sanitize_filename_idem_C9 (s : String) :
    sanitize_filename (sanitize_filename s) = sanitize_filename s := by
  unfold sanitize_filename
  by_cases h : (sanitizeCore s.data).isEmpty
  · rw [if_pos h]
    decide
  · rw [if_neg h]
    have hdata : (String.mk (sanitizeCore s.data)).data = sanitizeCore s.data := rfl
    rw [hdata, sanitizeCore_idem, if_neg h]

/-- C1: for every list of N extracted items, `process_menu` assigns each
item the 1-based sequence number equal to its position in extraction order
(the worker for 0-based index `i` writes file
`image_filename (i+1) name ext`), and both the returned items and the items
written to `menu_items.json` appear in extraction order 1..N regardless of
the order in which the image-generation tasks complete, including fully
reversed completion order. -/
theorem process_menu_order_C1
    (api_key image_provider image_format fal_api_key : String)
    (hints : Nat → Option String) (items_field : ItemsField)
    (items : List MenuItem) (completionOrder : List Nat)
    (hkey : ¬ (api_key = ""))
    (hfal : ¬ (pyLower image_provider = FAL_IMAGE_PROVIDER ∧ fal_api_key = ""))
    (hprov : pyLower image_provider = GEMINI_IMAGE_PROVIDER ∨
      pyLower image_provider = FAL_IMAGE_PROVIDER)
    (hextract : extract_menu_items items_field = .ok items)
    (hperm : List.Perm completionOrder (List.range items.length)) :
    process_menu api_key image_provider image_format fal_api_key hints items_field
        completionOrder
      = (completionOrder.map (fun i => WriteEvent.imageFile
            (enriched_item image_provider image_format hints items i).image_path)
          ++ [WriteEvent.metadataFile
                (expected_items image_provider image_format hints items)],
        .ok (expected_items image_provider image_format hints items)) ∧
    ∀ i, i < items.length →
      (expected_items image_provider image_format hints items).getD i ⟨"", "", "", ""⟩
        = { name := (items.getD i ⟨"", "", ""⟩).name,
            price := (items.getD i ⟨"", "", ""⟩).price,
            description := (items.getD i ⟨"", "", ""⟩).description,
            image_path := image_filename (i + 1) (items.getD i ⟨"", "", ""⟩).name
              (gen_extension image_provider image_format (hints i)) } := by
  constructor
  · unfold process_menu
    rw [if_neg hkey, if_neg hfal, hextract]
    exact run_items_ok image_provider image_format hints items completionOrder hprov hperm
  · intro i hi
    unfold expected_items
    rw [List.getD_eq_getElem _ _ (by simpa using hi)]
    rw [List.getElem_map, List.getElem_range]
    rfl

/-- C1 witness: three extracted items processed with fully reversed
completion order come back in extraction order with sequence numbers
01, 02, 03 in the filenames. -/
theorem process_menu_order_C1_witness :
    process_menu "k" "gemini_imagen" "png" "" (fun _ => none)
        (ItemsField.list
          [⟨true, some "Alpha", some "1", some "a"⟩,
            ⟨true, some "Beta", some "2", some "b"⟩,
            ⟨true, some "Gamma", some "3", some "c"⟩])
        [2, 1, 0]
      = ([2, 1, 0].map (fun i => WriteEvent.imageFile
            (enriched_item "gemini_imagen" "png" (fun _ => none)
              [⟨"Alpha", "1", "a"⟩, ⟨"Beta", "2", "b"⟩, ⟨"Gamma", "3", "c"⟩] i).image_path)
          ++ [WriteEvent.metadataFile
                (expected_items "gemini_imagen" "png" (fun _ => none)
                  [⟨"Alpha", "1", "a"⟩, ⟨"Beta", "2", "b"⟩, ⟨"Gamma", "3", "c"⟩])],
        .ok (expected_items "gemini_imagen" "png" (fun _ => none)
          [⟨"Alpha", "1", "a"⟩, ⟨"Beta", "2", "b"⟩, ⟨"Gamma", "3", "c"⟩])) ∧
    ∀ i, i < ([⟨"Alpha", "1", "a"⟩, ⟨"Beta", "2", "b"⟩,
        ⟨"Gamma", "3", "c"⟩] : List MenuItem).length →
      (expected_items "gemini_imagen" "png" (fun _ => none)
          [⟨"Alpha", "1", "a"⟩, ⟨"Beta", "2", "b"⟩, ⟨"Gamma", "3", "c"⟩]).getD i ⟨"", "", "", ""⟩
        = { name := (([⟨"Alpha", "1", "a"⟩, ⟨"Beta", "2", "b"⟩,
              ⟨"Gamma", "3", "c"⟩] : List MenuItem).getD i ⟨"", "", ""⟩).name,
            price := (([⟨"Alpha", "1", "a"⟩, ⟨"Beta", "2", "b"⟩,
              ⟨"Gamma", "3", "c"⟩] : List MenuItem).getD i ⟨"", "", ""⟩).price,
            description := (([⟨"Alpha", "1", "a"⟩, ⟨"Beta", "2", "b"⟩,
              ⟨"Gamma", "3", "c"⟩] : List MenuItem).getD i ⟨"", "", ""⟩).description,
            image_path := image_filename (i + 1)
              (([⟨"Alpha", "1", "a"⟩, ⟨"Beta", "2", "b"⟩,
                ⟨"Gamma", "3", "c"⟩] : List MenuItem).getD i ⟨"", "", ""⟩).name
              (gen_extension "gemini_imagen" "png" ((fun _ => none) i)) } :=
  process_menu_order_C1 "k" "gemini_imagen" "png" "" (fun _ => none)
    (ItemsField.list
      [⟨true, some "Alpha", some "1", some "a"⟩,
        ⟨true, some "Beta", some "2", some "b"⟩,
        ⟨true, some "Gamma", some "3", some "c"⟩])
    [⟨"Alpha", "1", "a"⟩, ⟨"Beta", "2", "b"⟩, ⟨"Gamma", "3", "c"⟩]
    [2, 1, 0]
    (by decide) (by decide) (Or.inl (by decide)) rfl (by decide)

/-- C5: when the parsed response has no `items` key, or its value is not a
list, or the list is empty, `process_menu` propagates the
`MenuExtractionError` and performs no file writes (no image files, no
`menu_items.json`). -/
theorem process_menu_extraction_error_C5
    (api_key image_provider image_format fal_api_key : String)
    (hints : Nat → Option String) (items_field : ItemsField)
    (completionOrder : List Nat)
    (hkey : ¬ (api_key = ""))
    (hfal : ¬ (pyLower image_provider = FAL_IMAGE_PROVIDER ∧ fal_api_key = ""))
    (hbad : items_field = ItemsField.absent ∨ items_field = ItemsField.notList ∨
      items_field = ItemsField.list []) :
    process_menu api_key image_provider image_format fal_api_key hints items_field
        completionOrder
      = ([], .error (PipelineError.menuExtraction
          "No menu items detected in OpenAI response.")) := by
  unfold process_menu
  rw [if_neg hkey, if_neg hfal]
  rcases hbad with rfl | rfl | rfl <;> rfl

/-- C5 witness: an empty `items` list yields the extraction error and an
empty write log. -/
theorem process_menu_extraction_error_C5_witness :
    process_menu "k" "gemini_imagen" "png" "" (fun _ => none)
        (ItemsField.list []) [0, 1]
      = ([], .error (PipelineError.menuExtraction
          "No menu items detected in OpenAI response.")) :=
  process_menu_extraction_error_C5 "k" "gemini_imagen" "png" "" (fun _ => none)
    (ItemsField.list []) [0, 1] (by decide) (by decide) (Or.inr (Or.inr rfl))

/-- C4: for every `items` list containing at least one dict entry with a
non-blank name, `extract_menu_items` succeeds with a non-empty cleaned list
of length at most the number of raw entries (name-less entries are dropped,
not fatal); every cleaned item has a trimmed non-blank name, price `"N/A"`
exactly when the raw price was missing or blank, and the templated default
description exactly when the raw description was missing or blank; and the
two-item Truffle Risotto / Tiramisu payload yields item 2 with price
`"N/A"` and description `"A signature dish named Tiramisu."`. -/
theorem extract_menu_items_cleaning_C4 (entries : List RawEntry)
    (hgood : ∃ e ∈ entries, e.isDict = true ∧ ¬ (pyStripWS (e.name.getD "") = "")) :
    ∃ cleaned,
      extract_menu_items (ItemsField.list entries) = .ok cleaned ∧
      ¬ (cleaned = []) ∧
      cleaned.length ≤ entries.length ∧
      (∀ it ∈ cleaned, ¬ (it.name = "") ∧ pyStripWS it.name = it.name) ∧
      (∀ e ∈ entries, ∀ it, cleanEntry e = some it →
        it.name = pyStripWS (e.name.getD "") ∧
        (pyStripWS (e.price.getD "") = "" → it.price = "N/A") ∧
        (pyStripWS (e.description.getD "") = "" →
          it.description = "A signature dish named " ++ it.name ++ ".")) ∧
      extract_menu_items (ItemsField.list
          [⟨true, some "Truffle Risotto", some "$24",
              some "Creamy arborio rice with black truffle."⟩,
            ⟨true, some "Tiramisu", some "", some ""⟩])
        = .ok [⟨"Truffle Risotto", "$24", "Creamy arborio rice with black truffle."⟩,
            ⟨"Tiramisu", "N/A", "A signature dish named Tiramisu."⟩] := by
  obtain ⟨e0, he0mem, hd0, hn0⟩ := hgood
  have hit0 : cleanEntry e0 = some (cleanedOf e0) :=
    cleanEntry_some_iff.mpr ⟨hd0, hn0, rfl⟩
  have hmem0 : cleanedOf e0 ∈ entries.filterMap cleanEntry :=
    List.mem_filterMap.mpr ⟨e0, he0mem, hit0⟩
  have hne : ¬ (entries = []) := by
    rintro rfl
    cases he0mem
  have hcne : ¬ (entries.filterMap cleanEntry = []) := by
    intro hc
    rw [hc] at hmem0
    cases hmem0
  refine ⟨entries.filterMap cleanEntry, ?_, hcne, ?_, ?_, ?_, rfl⟩
  · show (if entries = []
        then Except.error (PipelineError.menuExtraction
          "No menu items detected in OpenAI response.")
        else if List.filterMap cleanEntry entries = []
          then Except.error (PipelineError.menuExtraction
            "All menu entries were empty after cleaning.")
          else Except.ok (List.filterMap cleanEntry entries))
      = Except.ok (List.filterMap cleanEntry entries)
    rw [if_neg hne, if_neg hcne]
  · exact List.length_filterMap_le cleanEntry entries
  · intro it hit
    obtain ⟨e, _, hce⟩ := List.mem_filterMap.mp hit
    obtain ⟨_, hname, hform⟩ := cleanEntry_some_iff.mp hce
    subst hform
    exact ⟨hname, pyStripWS_idem (e.name.getD "")⟩
  · intro e _ it hce
    obtain ⟨_, hname, hform⟩ := cleanEntry_some_iff.mp hce
    subst hform
    refine ⟨rfl, fun hp => by simp [cleanedOf, hp], fun hd => by simp [cleanedOf, hd]⟩

/-- C4 witness: the Truffle Risotto / Tiramisu payload satisfies the
hypothesis and all conclusions. -/
theorem extract_menu_items_cleaning_C4_witness :
    ∃ cleaned,
      extract_menu_items (ItemsField.list
          [⟨true, some "Truffle Risotto", some "$24",
              some "Creamy arborio rice with black truffle."⟩,
            ⟨true, some "Tiramisu", some "", some ""⟩]) = .ok cleaned ∧
      ¬ (cleaned = []) ∧
      cleaned.length ≤ ([⟨true, some "Truffle Risotto", some "$24",
          some "Creamy arborio rice with black truffle."⟩,
        ⟨true, some "Tiramisu", some "", some ""⟩] : List RawEntry).length ∧
      (∀ it ∈ cleaned, ¬ (it.name = "") ∧ pyStripWS it.name = it.name) ∧
      (∀ e ∈ ([⟨true, some "Truffle Risotto", some "$24",
            some "Creamy arborio rice with black truffle."⟩,
          ⟨true, some "Tiramisu", some "", some ""⟩] : List RawEntry),
        ∀ it, cleanEntry e = some it →
        it.name = pyStripWS (e.name.getD "") ∧
        (pyStripWS (e.price.getD "") = "" → it.price = "N/A") ∧
        (pyStripWS (e.description.getD "") = "" →
          it.description = "A signature dish named " ++ it.name ++ ".")) ∧
      extract_menu_items (ItemsField.list
          [⟨true, some "Truffle Risotto", some "$24",
              some "Creamy arborio rice with black truffle."⟩,
            ⟨true, some "Tiramisu", some "", some ""⟩])
        = .ok [⟨"Truffle Risotto", "$24", "Creamy arborio rice with black truffle."⟩,
            ⟨"Tiramisu", "N/A", "A signature dish named Tiramisu."⟩] :=
  extract_menu_items_cleaning_C4
    [⟨true, some "Truffle Risotto", some "$24",
        some "Creamy arborio rice with black truffle."⟩,
      ⟨true, some "Tiramisu", some "", some ""⟩]
    ⟨⟨true, some "Tiramisu", some "", some ""⟩, by decide, by decide, by decide⟩

/-- C7 counterexample: the prompt template's separator in the source is the
three-character sequence U+00E2 U+20AC U+201D, not an em dash U+2014, so
`build_dish_prompt` does not return the claimed em-dash string. -/
theorem build_dish_prompt_cex_C7 :
    ¬ (build_dish_prompt ⟨"Tiramisu", "N/A", "Classic dessert"⟩
        = "Tiramisu \u2014 Classic dessert. " ++ IMAGE_STYLE_GUIDANCE) := by
  decide

/-- C7 (amended): `build_dish_prompt` returns exactly the string
`"{name} â€” {description}. {IMAGE_STYLE_GUIDANCE}"`, where the separator is
the three-character sequence U+00E2 U+20AC U+201D (a mojibake rendering of
an em dash) rather than U+2014, and the same single deterministic template
is the prompt used for both image providers. -/
theorem build_dish_prompt_amended_C7 (item : MenuItem) (seq : Nat)
    (image_format : String) (ext_hint : Option String) :
    build_dish_prompt item
        = item.name ++ " \u00E2\u20AC\u201D " ++ item.description ++ ". "
            ++ IMAGE_STYLE_GUIDANCE ∧
    (generate_item_image item seq GEMINI_IMAGE_PROVIDER image_format ext_hint).map
        GenOutcome.prompt = .ok (build_dish_prompt item) ∧
    (generate_item_image item seq FAL_IMAGE_PROVIDER image_format ext_hint).map
        GenOutcome.prompt = .ok (build_dish_prompt item) :=
  ⟨rfl, rfl, rfl⟩

/-- C6 counterexample: a preprocessing failure raising an exception other
than `UnidentifiedImageError` (for example an `OSError` from a truncated
file during resize or re-encode) propagates out of `prepare_menu_payload`
rather than falling back to the raw bytes. -/
theorem prepare_menu_payload_cex_C6 :
    prepare_menu_payload true (some "image/png") [7] PreprocessOutcome.otherFailure
        = .error (PipelineError.osError
            "preprocessing failed with an exception other than UnidentifiedImageError") ∧
    ¬ (prepare_menu_payload true (some "image/png") [7] PreprocessOutcome.otherFailure
        = .ok ⟨"image/png", [7]⟩) := by
  exact ⟨rfl, by decide⟩

/-- C6 (amended): `prepare_menu_payload` falls back to returning the file's
raw bytes unmodified (with the guessed or default mime type) exactly when
preprocessing fails with `UnidentifiedImageError` — and also when Pillow is
not installed; a preprocessing failure raising any other exception
propagates instead of falling back. -/
theorem prepare_menu_payload_amended_C6 (mimeGuess : Option String) (rawBytes : List Nat) :
    prepare_menu_payload true mimeGuess rawBytes PreprocessOutcome.unidentifiedImage
        = .ok ⟨pyOr mimeGuess "application/octet-stream", rawBytes⟩ ∧
    (∀ outcome, prepare_menu_payload false mimeGuess rawBytes outcome
        = .ok ⟨pyOr mimeGuess "image/jpeg", rawBytes⟩) ∧
    prepare_menu_payload true mimeGuess rawBytes PreprocessOutcome.otherFailure
        = .error (PipelineError.osError
            "preprocessing failed with an exception other than UnidentifiedImageError") :=
  ⟨rfl, fun _ => rfl, rfl⟩

/-- C2: `process_uploaded_files` invokes `process_menu` with the keyword
argument `generate_images`, which the signature of `process_menu` does not
declare, so for every upload whose valid files number one to ten and whose
secured names are non-empty and of allowed type, the call for the first page
raises `TypeError`, the broad handler removes the upload and
output directories, and a dict with an `"error"` key is returned —
whatever `secure_filename` does elsewhere and whatever a correct call
would have produced, this entry point never succeeds. -/
theorem process_uploaded_files_C2 (secure : String → String)
    (pageResult : Nat → Except PipelineError Unit) (files : List UploadFile)
    (hne : ¬ (valid_files files = []))
    (hcount : (valid_files files).length ≤ MAX_FILES)
    (hnames : ∀ f ∈ valid_files files,
      ¬ (secure f.filename = "") ∧ allowed_file (secure f.filename) = true) :
    process_menu_call_kwargs.contains "generate_images" = true ∧
    process_menu_params.contains "generate_images" = false ∧
    process_uploaded_files secure pageResult files = ⟨some TYPE_ERROR_MSG, true⟩ := by
  refine ⟨by decide, by decide, ?_⟩
  unfold process_uploaded_files
  rw [if_neg hne, if_neg (Nat.not_lt.mpr hcount)]
  cases hval : valid_files files with
  | nil => exact absurd hval hne
  | cons f rest =>
    have hf := hnames f (by rw [hval]; exact List.mem_cons_self f rest)
    unfold page_loop
    simp only [if_neg hf.1]
    rw [if_neg (by simp [hf.2]), if_pos (by decide)]
    rfl

/-- C2 witness: one valid upload named `menu.jpg`, with `secure_filename`
taken as the identity and an arbitrary successful page oracle, returns the
TypeError message with the session directories removed. -/
theorem process_uploaded_files_C2_witness :
    process_menu_call_kwargs.contains "generate_images" = true ∧
    process_menu_params.contains "generate_images" = false ∧
    process_uploaded_files (fun s => s) (fun _ => .ok ()) [⟨true, "menu.jpg"⟩]
      = ⟨some TYPE_ERROR_MSG, true⟩ :=
  process_uploaded_files_C2 (fun s => s) (fun _ => .ok ()) [⟨true, "menu.jpg"⟩]
    (by decide) (by decide) (by decide)

end SeeFood
